import Mathlib

/-!
Shallow embedding of the interactive terminal browser (`ui` subcommand) of
the rsf client, translated from `src/commands/ui.rs`: the tab model
(`SelectedTab`), the selection model (`TableState` and its `new`, `next`,
`previous` operations and icon resolution), the mouse and keyboard
dispatch of `handle_ui_command`, the render-loop control flow, and the
list-panel row construction.  Machine integers (`u16`, `usize`) are
modelled as `Nat`; the one place the source truncates (`items.len() as
u16`) is modelled explicitly as `% 65536`.  JSON field access
`value["k"].as_str()` is modelled as an `Option String` field.
-/

/-- A volume record as read by the UI: `volume["vol"].as_str()` and
`volume["type"].as_str()` each yield an optional string (`none` when the
field is absent or not a string).  No other field of the record is read by
the selection model, so the remaining JSON payload is not represented. -/
structure Volume where
  vol : Option String
  type : Option String
deriving Repr, DecidableEq

/-- Lexicographic order on strings (as codepoint lists), the order decided
by Rust `str::cmp`: bytewise UTF-8 comparison, which coincides with
codepoint-by-codepoint comparison.  `strLe a b = true` means `a ≤ b`. -/
def strLe : List Char → List Char → Bool
  | [], _ => true
  | _ :: _, [] => false
  | x :: xs, y :: ys =>
    if x.toNat < y.toNat then true
    else if y.toNat < x.toNat then false
    else strLe xs ys

/-- Name key used by the sort comparator in `TableState::new`:
`a["vol"].as_str().unwrap_or("")`. -/
def volName (v : Volume) : String := v.vol.getD ""

/-- Comparator of `TableState::new`: compare volumes by name,
case-sensitively, with a missing name read as the empty string. -/
def nameLe (a b : Volume) : Bool := strLe (volName a).data (volName b).data

/-- Tab enum from the source (the spec calls `VolumeShow` "VolumeDetail"). -/
inductive SelectedTab where
  | VolumeShow
  | Scans
  | Browse
deriving Repr, DecidableEq

/-- `SelectedTab::next`: one step forward, clamped at `Browse`. -/
def SelectedTab.next : SelectedTab → SelectedTab
  | .VolumeShow => .Scans
  | .Scans => .Browse
  | .Browse => .Browse

/-- `SelectedTab::previous`: one step back, clamped at `VolumeShow`. -/
def SelectedTab.previous : SelectedTab → SelectedTab
  | .VolumeShow => .VolumeShow
  | .Scans => .VolumeShow
  | .Browse => .Scans

/-- `SelectedTab::to_index`. -/
def SelectedTab.to_index : SelectedTab → Nat
  | .VolumeShow => 0
  | .Scans => 1
  | .Browse => 2

/-- `SelectedTab::from_index`. -/
def SelectedTab.from_index : Nat → Option SelectedTab
  | 0 => some .VolumeShow
  | 1 => some .Scans
  | 2 => some .Browse
  | _ => none

/-- `SelectedTab::from_key`: the `'1'`/`'2'`/`'3'` tab shortcuts. -/
def SelectedTab.from_key (key : Char) : Option SelectedTab :=
  if key = '1' then some .VolumeShow
  else if key = '2' then some .Scans
  else if key = '3' then some .Browse
  else none

/-- Icon constants from the source (each glyph is followed by a space). -/
def WINDOWS_ICON : String := String.mk [Char.ofNat 0xf17a, ' ']

/-- Linux icon constant. -/
def LINUX_ICON : String := String.mk [Char.ofNat 0xf17c, ' ']

/-- Virtual (cloud) icon constant. -/
def VIRTUAL_ICON : String := String.mk [Char.ofNat 0xf0c2, ' ']

/-- Question-mark icon constant. -/
def UNKNOWN_ICON : String := String.mk [Char.ofNat 0xf128, ' ']

/-- Plain-text fallback for the windows icon. -/
def WINDOWS_FALLBACK : String := "[W] "

/-- Plain-text fallback for the linux icon. -/
def LINUX_FALLBACK : String := "[L] "

/-- Plain-text fallback for the virtual icon. -/
def VIRTUAL_FALLBACK : String := "[V] "

/-- Plain-text fallback for the unknown icon. -/
def UNKNOWN_FALLBACK : String := "[?] "

/-- Tab header segment width, `TAB_WIDTH`. -/
def TAB_WIDTH : Nat := 15

/-- Rust `char::is_control`: true exactly for the Unicode general category
Cc, i.e. U+0000–U+001F and U+007F–U+009F. -/
def isControlChar (c : Char) : Bool :=
  c.toNat < 0x20 || (0x7f ≤ c.toNat && c.toNat ≤ 0x9f)

/-- Startup glyph test from `TableState::new`: every codepoint of each of
the four icon strings must be a non-control character. -/
def iconsRenderable : Bool :=
  WINDOWS_ICON.data.all (fun c => !isControlChar c)
    && LINUX_ICON.data.all (fun c => !isControlChar c)
    && VIRTUAL_ICON.data.all (fun c => !isControlChar c)
    && UNKNOWN_ICON.data.all (fun c => !isControlChar c)

/-- Rust `str::to_lowercase`, modelled per codepoint with `Char.toLower`
(which lowercases exactly the ASCII letters; the tags this program
compares against are all ASCII). -/
def toLowercase (s : String) : String := String.mk (s.data.map Char.toLower)

/-- The selection-model state, `struct TableState` from the source. -/
structure TableState where
  selected : Option Nat
  items : List Volume
  use_unicode : Bool
  selected_tab : SelectedTab
deriving Repr, DecidableEq

/-- `TableState::new`: sorts the volumes by name (Rust `slice::sort_by`, a
stable sort, modelled by the stable `List.insertionSort` with the same
comparator), computes the glyph test once, selects index 0 when the list
is non-empty, and starts on the default tab `VolumeShow`. -/
def TableState.new (items : List Volume) : TableState :=
  let sorted := List.insertionSort (fun a b => nameLe a b = true) items
  { selected := if sorted.isEmpty then none else some 0
    items := sorted
    use_unicode := iconsRenderable
    selected_tab := SelectedTab.VolumeShow }

/-- `TableState::get_os_icon_with_style`: the volume's type tag, lowercased,
picks one of four icons; the glyph set is used when `use_unicode` holds,
the fallback set otherwise.  The source also returns a `Style`, which is
always `Style::default()`; that constant component is omitted here. -/
def TableState.get_os_icon_with_style (st : TableState) (vol_type : String) : String :=
  if st.use_unicode then
    if toLowercase vol_type = "windows" then WINDOWS_ICON
    else if toLowercase vol_type = "linux" then LINUX_ICON
    else if toLowercase vol_type = "virtual" then VIRTUAL_ICON
    else UNKNOWN_ICON
  else
    if toLowercase vol_type = "windows" then WINDOWS_FALLBACK
    else if toLowercase vol_type = "linux" then LINUX_FALLBACK
    else if toLowercase vol_type = "virtual" then VIRTUAL_FALLBACK
    else UNKNOWN_FALLBACK

/-- `TableState::next`: cyclic forward step over the volume list. -/
def TableState.next (st : TableState) : TableState :=
  if st.items.isEmpty then { st with selected := none }
  else
    { st with
        selected := some (match st.selected with
          | some i => (i + 1) % st.items.length
          | none => 0) }

/-- `TableState::previous`: cyclic backward step over the volume list. -/
def TableState.previous (st : TableState) : TableState :=
  if st.items.isEmpty then { st with selected := none }
  else
    { st with
        selected := some (match st.selected with
          | some i => if i = 0 then st.items.length - 1 else i - 1
          | none => 0) }

/-- A terminal cell coordinate (ratatui `Position`); `u16` fields modelled
as `Nat`. -/
structure Position where
  x : Nat
  y : Nat
deriving Repr, DecidableEq

/-- A screen rectangle (ratatui `Rect`); `u16` fields modelled as `Nat`. -/
structure Rect where
  x : Nat
  y : Nat
  width : Nat
  height : Nat
deriving Repr, DecidableEq

/-- ratatui `Rect::contains`: half-open membership on both axes. -/
def Rect.contains (r : Rect) (p : Position) : Bool :=
  decide (r.x ≤ p.x) && decide (p.x < r.x + r.width)
    && decide (r.y ≤ p.y) && decide (p.y < r.y + r.height)

/-- Mouse-press dispatch from `handle_ui_command` (`MouseEventKind::Down`):
a press inside the volume list region selects the row under the cursor
when in range; a press on the first row of the tabs region selects the tab
under the cursor when in range.  `row.saturating_sub(volumes_area.y + 1)`
is `Nat` subtraction; `table_state.items.len() as u16` is the length
truncated to 16 bits, modelled as `% 65536`.  The source also mirrors the
selection into ratatui's own table state, which holds no extra
information and is not represented. -/
def handleMouseDown (st : TableState) (volumes_area tabs_area : Rect)
    (column row : Nat) : TableState :=
  if volumes_area.contains ⟨column, row⟩ then
    let relative_row := row - (volumes_area.y + 1)
    if relative_row < st.items.length % 65536 then
      { st with selected := some relative_row }
    else st
  else if tabs_area.contains ⟨column, row⟩ then
    if row = tabs_area.y then
      let relative_x := column - tabs_area.x
      let tab_index := relative_x / (TAB_WIDTH + 2)
      if tab_index < 3 then
        match SelectedTab.from_index tab_index with
        | some tab => { st with selected_tab := tab }
        | none => st
      else st
    else st
  else st

/-- Key events the dispatcher distinguishes: a character, the four arrow
keys, or anything else. -/
inductive KeyCode where
  | char (c : Char)
  | down
  | up
  | left
  | right
  | other
deriving Repr, DecidableEq

/-- Keyboard dispatch from `handle_ui_command`.  `none` models `break`
(the quit key `'q'`); `some st` is the state after the event.  Any
character that is neither `'q'`, a tab shortcut, `'j'` nor `'k'` is a
no-op, as is any unrecognized key. -/
def handleKey (st : TableState) (k : KeyCode) : Option TableState :=
  match k with
  | .char c =>
    if c = 'q' then none
    else
      match SelectedTab.from_key c with
      | some tab => some { st with selected_tab := tab }
      | none =>
        if c = 'j' then some st.next
        else if c = 'k' then some st.previous
        else some st
  | .down => some st.next
  | .up => some st.previous
  | .right => some { st with selected_tab := st.selected_tab.next }
  | .left => some { st with selected_tab := st.selected_tab.previous }
  | .other => some st

/-- One iteration's outcome of the fallible calls and the polled event:
either the draw fails, the poll fails, the poll times out with no event,
the read fails, or an event arrives (key, mouse press, other mouse event,
or a non-key non-mouse event). -/
inductive StepInput where
  | drawErr
  | pollErr
  | noEvent
  | readErr
  | key (k : KeyCode)
  | mouseDown (column row : Nat)
  | mouseOther
  | otherEvent
deriving Repr, DecidableEq

/-- How the render loop ended: `quit` for the `break` on the quit key,
`err` for a failed draw/poll/read call propagated by `?`, `fuelOut` when
the supplied iteration script ran out while the loop was still running
(the real loop would simply keep polling). -/
inductive LoopExit where
  | quit
  | err
  | fuelOut
deriving Repr, DecidableEq

/-- The render loop of `handle_ui_command`, driven by a script giving each
iteration's outcome.  The draw itself only repaints from the state (and
recomputes the two regions, held fixed here as the terminal size is fixed
across the script); state changes happen in the dispatch arms. -/
def runLoop (volumes_area tabs_area : Rect) :
    List StepInput → TableState → TableState × LoopExit
  | [], st => (st, .fuelOut)
  | step :: rest, st =>
    match step with
    | .drawErr => (st, .err)
    | .pollErr => (st, .err)
    | .noEvent => runLoop volumes_area tabs_area rest st
    | .readErr => (st, .err)
    | .key k =>
      match handleKey st k with
      | none => (st, .quit)
      | some st' => runLoop volumes_area tabs_area rest st'
    | .mouseDown column row =>
      runLoop volumes_area tabs_area rest
        (handleMouseDown st volumes_area tabs_area column row)
    | .mouseOther => runLoop volumes_area tabs_area rest st
    | .otherEvent => runLoop volumes_area tabs_area rest st

/-- Terminal-mode side effects of `handle_ui_command`, in the order they
can be issued. -/
inductive TermEffect where
  | enableMouseCapture
  | enableRawMode
  | enterAlternateScreen
  | disableMouseCapture
  | disableRawMode
  | leaveAlternateScreen
deriving Repr, DecidableEq

/-- The three terminal-mode changes issued at the top of
`handle_ui_command`, before the volume fetch. -/
def setupEffects : List TermEffect :=
  [.enableMouseCapture, .enableRawMode, .enterAlternateScreen]

/-- The three terminal-mode restorations issued after the loop's `break`. -/
def cleanupEffects : List TermEffect :=
  [.disableMouseCapture, .disableRawMode, .leaveAlternateScreen]

/-- Overall outcome of `handle_ui_command`: `Ok(())`, an error propagated
by `?`, or the model artifact of an exhausted iteration script. -/
inductive UiResult where
  | ok
  | err
  | stillRunning
deriving Repr, DecidableEq

/-- Control flow of `handle_ui_command`: the three terminal-mode setup
calls run first, then the volume fetch (`client.get_volumes().await?`);
a fetch failure propagates immediately.  Otherwise the state is built
with `TableState::new` and the loop runs; a loop error propagates
immediately, while the quit `break` is followed by the three restoration
calls and `Ok`.  Returns the issued terminal-mode effects in order,
paired with the outcome. -/
def handle_ui_command (fetch : Except Unit (List Volume))
    (volumes_area tabs_area : Rect) (script : List StepInput) :
    List TermEffect × UiResult :=
  match fetch with
  | .error _ => (setupEffects, .err)
  | .ok volumes =>
    match runLoop volumes_area tabs_area script (TableState.new volumes) with
    | (_, .quit) => (setupEffects ++ cleanupEffects, .ok)
    | (_, .err) => (setupEffects, .err)
    | (_, .fuelOut) => (setupEffects, .stillRunning)

/-- One row of the list panel, from the draw closure: `volume["vol"].as_str()?`
aborts the row (the record is dropped by `filter_map`) when the name is
missing; a missing type is read as the empty string and the row text is
`format!("\x7b\x7d\x7b\x7d", icon, name)`. -/
def renderRow (st : TableState) (volume : Volume) : Option String :=
  match volume.vol with
  | none => none
  | some name =>
    let vol_type := volume.type.getD ""
    some (st.get_os_icon_with_style vol_type ++ name)

/-- The list-panel rows built by the draw closure, in item order. -/
def renderRows (st : TableState) : List String :=
  st.items.filterMap (renderRow st)

/-- The four icon categories named by the specification. -/
inductive Category where
  | windows
  | linux
  | virtual
  | unrecognized
deriving Repr, DecidableEq

/-- Category resolution: the lowercased type tag matched against the three
known tags, anything else being unrecognized. -/
def categoryOf (vol_type : String) : Category :=
  if toLowercase vol_type = "windows" then .windows
  else if toLowercase vol_type = "linux" then .linux
  else if toLowercase vol_type = "virtual" then .virtual
  else .unrecognized

/-- Primary glyph of each category. -/
def glyphOf : Category → String
  | .windows => WINDOWS_ICON
  | .linux => LINUX_ICON
  | .virtual => VIRTUAL_ICON
  | .unrecognized => UNKNOWN_ICON

/-- Plain-text fallback label of each category. -/
def fallbackOf : Category → String
  | .windows => WINDOWS_FALLBACK
  | .linux => LINUX_FALLBACK
  | .virtual => VIRTUAL_FALLBACK
  | .unrecognized => UNKNOWN_FALLBACK

/-- The selection-model operations named by the specification's invariant:
cyclic selection movement and row-click selection (the mouse dispatch,
which also covers tab clicks). -/
inductive SelOp where
  | selectNext
  | selectPrevious
  | rowClick (volumes_area tabs_area : Rect) (column row : Nat)
deriving Repr, DecidableEq

/-- Apply one selection-model operation. -/
def applySelOp (st : TableState) : SelOp → TableState
  | .selectNext => st.next
  | .selectPrevious => st.previous
  | .rowClick volumes_area tabs_area column row =>
    handleMouseDown st volumes_area tabs_area column row

/-- The specification's selection invariant: the highlighted index is
`none` exactly when the list is empty, and any highlighted index is a
valid index into the list. -/
def SelInv (st : TableState) : Prop :=
  (st.selected = none ↔ st.items = []) ∧
    ∀ i, st.selected = some i → i < st.items.length

/-! ### Helper lemmas about the comparator -/

/-- Totality of the lexicographic string order. -/
theorem strLe_total : ∀ a b : List Char, strLe a b = true ∨ strLe b a = true
  | [], _ => Or.inl rfl
  | _ :: _, [] => Or.inr rfl
  | x :: xs, y :: ys => by
    simp only [strLe]
    rcases Nat.lt_trichotomy x.toNat y.toNat with h | h | h
    · left; simp [h]
    · have h2 : ¬ x.toNat < y.toNat := by omega
      have h3 : ¬ y.toNat < x.toNat := by omega
      simpa [h2, h3] using strLe_total xs ys
    · right; simp [h]

/-- Transitivity of the lexicographic string order. -/
theorem strLe_trans : ∀ a b c : List Char,
    strLe a b = true → strLe b c = true → strLe a c = true
  | [], _, _, _, _ => rfl
  | _ :: _, [], _, h1, _ => by simp [strLe] at h1
  | _ :: _, _ :: _, [], _, h2 => by simp [strLe] at h2
  | x :: xs, y :: ys, z :: zs, h1, h2 => by
    simp only [strLe] at h1 h2 ⊢
    rcases Nat.lt_trichotomy x.toNat y.toNat with hxy | hxy | hxy
    · rcases Nat.lt_trichotomy y.toNat z.toNat with hyz | hyz | hyz
      · simp [show x.toNat < z.toNat from by omega]
      · simp [show x.toNat < z.toNat from by omega]
      · simp [show ¬ y.toNat < z.toNat from by omega, hyz] at h2
    · rcases Nat.lt_trichotomy y.toNat z.toNat with hyz | hyz | hyz
      · simp [show x.toNat < z.toNat from by omega]
      · have e1 : ¬ x.toNat < y.toNat := by omega
        have e2 : ¬ y.toNat < x.toNat := by omega
        have e3 : ¬ y.toNat < z.toNat := by omega
        have e4 : ¬ z.toNat < y.toNat := by omega
        simp [e1, e2] at h1
        simp [e3, e4] at h2
        simpa [show ¬ x.toNat < z.toNat from by omega,
          show ¬ z.toNat < x.toNat from by omega] using strLe_trans xs ys zs h1 h2
      · simp [show ¬ y.toNat < z.toNat from by omega, hyz] at h2
    · simp [show ¬ x.toNat < y.toNat from by omega, hxy] at h1

instance : IsTotal Volume (fun a b => nameLe a b = true) :=
  ⟨fun a b => strLe_total (volName a).data (volName b).data⟩

instance : IsTrans Volume (fun a b => nameLe a b = true) :=
  ⟨fun _ _ _ h1 h2 => strLe_trans _ _ _ h1 h2⟩

/-! ### Helper lemmas about the selection model -/

/-- Sorting at load keeps the number of volumes. -/
theorem TableState.new_items_length (l : List Volume) :
    (TableState.new l).items.length = l.length :=
  (List.perm_insertionSort (fun a b => nameLe a b = true) l).length_eq

/-- The initial highlighted index: 0 for a non-empty list, none otherwise. -/
theorem TableState.new_selected (l : List Volume) :
    (TableState.new l).selected = if l.length = 0 then none else some 0 := by
  have hlen : (List.insertionSort (fun a b => nameLe a b = true) l).length = l.length :=
    (List.perm_insertionSort _ l).length_eq
  by_cases h : l.length = 0
  · have he : (List.insertionSort (fun a b => nameLe a b = true) l).isEmpty = true := by
      rw [List.isEmpty_iff_length_eq_zero, hlen]; exact h
    simp [TableState.new, he, h]
  · have he : ¬ (List.insertionSort (fun a b => nameLe a b = true) l).isEmpty = true := by
      rw [List.isEmpty_iff_length_eq_zero, hlen]; exact h
    simp [TableState.new, he, h]

/-- `next` only changes the highlighted index. -/
theorem TableState.next_fields (st : TableState) :
    st.next.items = st.items ∧ st.next.use_unicode = st.use_unicode ∧
      st.next.selected_tab = st.selected_tab := by
  unfold TableState.next
  by_cases h : st.items.isEmpty <;> simp [h]

/-- `previous` only changes the highlighted index. -/
theorem TableState.previous_fields (st : TableState) :
    st.previous.items = st.items ∧ st.previous.use_unicode = st.use_unicode ∧
      st.previous.selected_tab = st.selected_tab := by
  unfold TableState.previous
  by_cases h : st.items.isEmpty <;> simp [h]

/-- `next` from a highlighted index on a non-empty list. -/
theorem TableState.next_of_some (st : TableState) (i : Nat)
    (hsel : st.selected = some i) (hne : st.items ≠ []) :
    st.next = { st with selected := some ((i + 1) % st.items.length) } := by
  unfold TableState.next
  simp [List.isEmpty_iff, hne, hsel]

/-- `previous` from a highlighted index on a non-empty list. -/
theorem TableState.previous_of_some (st : TableState) (i : Nat)
    (hsel : st.selected = some i) (hne : st.items ≠ []) :
    st.previous
      = { st with
            selected := some (if i = 0 then st.items.length - 1 else i - 1) } := by
  unfold TableState.previous
  simp [List.isEmpty_iff, hne, hsel]

/-- Iterating `next` from a valid index walks the cycle `i + k (mod n)`. -/
theorem TableState.next_iter (n : Nat) :
    ∀ (k : Nat) (st : TableState) (i : Nat), st.items.length = n →
      st.selected = some i → i < n →
      (TableState.next^[k] st).selected = some ((i + k) % n) ∧
        (TableState.next^[k] st).items = st.items
  | 0, st, i, _, hsel, hi => by
    simp [Function.iterate_zero_apply, hsel, Nat.mod_eq_of_lt hi]
  | k + 1, st, i, hlen, hsel, hi => by
    have hne : st.items ≠ [] := by
      intro h
      rw [h] at hlen
      simp at hlen
      omega
    have hstep := TableState.next_of_some st i hsel hne
    have hlen' : st.next.items.length = n := by rw [hstep]; exact hlen
    have hsel' : st.next.selected = some ((i + 1) % n) := by rw [hstep, hlen]
    have hi' : (i + 1) % n < n := Nat.mod_lt _ (by omega)
    have ih := TableState.next_iter n k st.next ((i + 1) % n) hlen' hsel' hi'
    constructor
    · rw [Function.iterate_succ_apply, ih.1, Nat.mod_add_mod]
      ring_nf
    · rw [Function.iterate_succ_apply, ih.2, hstep]


/-- `next` preserves the selection invariant. -/
theorem selInv_next {st : TableState} (_h : SelInv st) : SelInv st.next := by
  by_cases he : st.items.isEmpty = true
  · have hnil : st.items = [] := List.isEmpty_iff.mp he
    constructor
    · simp [TableState.next, he, hnil]
    · intro i hi
      simp [TableState.next, he] at hi
  · have hnil : st.items ≠ [] := fun hn => he (by simp [hn])
    have hpos : 0 < st.items.length := List.length_pos.mpr hnil
    constructor
    · simp [TableState.next, he, hnil]
    · intro i hi
      simp only [TableState.next, he, Bool.false_eq_true, if_false,
        Option.some.injEq] at hi ⊢
      rcases hs : st.selected with _ | j
      · rw [hs] at hi
        simp at hi
        omega
      · rw [hs] at hi
        simp at hi
        have hlt := Nat.mod_lt (j + 1) hpos
        omega

/-- `previous` preserves the selection invariant. -/
theorem selInv_previous {st : TableState} (h : SelInv st) : SelInv st.previous := by
  by_cases he : st.items.isEmpty = true
  · have hnil : st.items = [] := List.isEmpty_iff.mp he
    constructor
    · simp [TableState.previous, he, hnil]
    · intro i hi
      simp [TableState.previous, he] at hi
  · have hnil : st.items ≠ [] := fun hn => he (by simp [hn])
    have hpos : 0 < st.items.length := List.length_pos.mpr hnil
    constructor
    · simp [TableState.previous, he, hnil]
    · intro i hi
      simp only [TableState.previous, he, Bool.false_eq_true, if_false,
        Option.some.injEq] at hi ⊢
      rcases hs : st.selected with _ | j
      · rw [hs] at hi
        simp at hi
        omega
      · have hj := h.2 j hs
        rw [hs] at hi
        simp at hi
        split at hi <;> omega

/-- The mouse dispatch preserves the selection invariant. -/
theorem selInv_handleMouseDown {st : TableState} (h : SelInv st)
    (volumes_area tabs_area : Rect) (column row : Nat) :
    SelInv (handleMouseDown st volumes_area tabs_area column row) := by
  simp only [handleMouseDown]
  split
  · split
    · rename_i hlt
      have hmod : st.items.length % 65536 ≤ st.items.length := Nat.mod_le _ _
      have hpos : 0 < st.items.length := by omega
      have hnil : st.items ≠ [] := by
        intro hn
        rw [hn] at hpos
        simp at hpos
      exact ⟨by simp [hnil], fun i hi => by simp at hi ⊢; omega⟩
    · exact h
  · split
    · split
      · split
        · split
          · exact ⟨h.1, h.2⟩
          · exact h
        · exact h
      · exact h
    · exact h

/-- The keyboard dispatch preserves the selection invariant. -/
theorem selInv_handleKey {st : TableState} (h : SelInv st) (k : KeyCode)
    (st' : TableState) (hk : handleKey st k = some st') : SelInv st' := by
  unfold handleKey at hk
  rcases k with c | _ | _ | _ | _ | _
  · by_cases hq : c = 'q'
    · simp [hq] at hk
    · simp only [hq, ite_false, if_false] at hk
      rcases hfk : SelectedTab.from_key c with _ | tab
      · rw [hfk] at hk
        by_cases hj : c = 'j'
        · simp [hj] at hk
          exact hk ▸ selInv_next h
        · by_cases hk' : c = 'k'
          · simp [hj, hk'] at hk
            exact hk ▸ selInv_previous h
          · simp [hj, hk'] at hk
            exact hk ▸ h
      · rw [hfk] at hk
        simp at hk
        exact hk ▸ ⟨h.1, h.2⟩
  · simp at hk
    exact hk ▸ selInv_next h
  · simp at hk
    exact hk ▸ selInv_previous h
  · simp at hk
    exact hk ▸ ⟨h.1, h.2⟩
  · simp at hk
    exact hk ▸ ⟨h.1, h.2⟩
  · simp at hk
    exact hk ▸ h

/-- The initial state satisfies the selection invariant. -/
theorem selInv_new (l : List Volume) : SelInv (TableState.new l) := by
  have hsel := TableState.new_selected l
  have hlen := TableState.new_items_length l
  constructor
  · rw [hsel]
    by_cases h : l.length = 0
    · simp [h]
      rw [← List.length_eq_zero]
      omega
    · simp [h]
      intro hc
      rw [hc] at hlen
      simp at hlen
      omega
  · intro i hi
    rw [hsel] at hi
    by_cases h : l.length = 0
    · simp [h] at hi
    · simp [h] at hi
      omega

/-- Any sequence of the listed selection operations preserves the invariant. -/
theorem selInv_foldl : ∀ (ops : List SelOp) (st : TableState), SelInv st →
    SelInv (ops.foldl applySelOp st)
  | [], _, h => h
  | op :: rest, st, h => by
    rw [List.foldl_cons]
    refine selInv_foldl rest _ ?_
    rcases op with _ | _ | ⟨va, ta, column, row⟩
    · exact selInv_next h
    · exact selInv_previous h
    · exact selInv_handleMouseDown h va ta column row

/-- Icon choice factors through the category and the global glyph flag. -/
theorem get_os_icon_eq (st : TableState) (vol_type : String) :
    st.get_os_icon_with_style vol_type
      = (if st.use_unicode then glyphOf else fallbackOf) (categoryOf vol_type) := by
  unfold TableState.get_os_icon_with_style categoryOf
  by_cases hu : st.use_unicode <;>
    by_cases h1 : toLowercase vol_type = "windows" <;>
      by_cases h2 : toLowercase vol_type = "linux" <;>
        by_cases h3 : toLowercase vol_type = "virtual" <;>
          simp [hu, h1, h2, h3, glyphOf, fallbackOf]

/-- Row construction keeps exactly the volumes whose name is present. -/
theorem filterMap_renderRow (st : TableState) : ∀ l : List Volume,
    l.filterMap (renderRow st)
      = (l.filter (fun v => v.vol.isSome)).map
          (fun v => st.get_os_icon_with_style (v.type.getD "") ++ v.vol.getD "")
  | [] => rfl
  | v :: rest => by
    rcases hv : v.vol with _ | name
    · simp [List.filterMap_cons, List.filter_cons, renderRow, hv,
        filterMap_renderRow st rest]
    · simp [List.filterMap_cons, List.filter_cons, renderRow, hv,
        filterMap_renderRow st rest]

/-! ### The claims -/

/-- C1: starting from a load (`TableState::new`) and applying any sequence
of selectNext, selectPrevious and mouse-press selection operations, the
highlighted index is `none` exactly when the volume list is empty, and any
highlighted index is a valid index into the list. -/
theorem claim1_selection_invariant (l : List Volume) (ops : List SelOp) :
    SelInv (ops.foldl applySelOp (TableState.new l)) :=
  selInv_foldl ops _ (selInv_new l)

/-- C2 is false on the code: when the startup fetch fails, the error is
returned only after mouse capture, raw mode and the alternate screen have
already been enabled. -/
theorem claim2_counterexample :
    (handle_ui_command (Except.error ()) ⟨0, 0, 80, 24⟩ ⟨16, 0, 64, 24⟩ []).2
        = UiResult.err ∧
    (handle_ui_command (Except.error ()) ⟨0, 0, 80, 24⟩ ⟨16, 0, 64, 24⟩ []).1.contains
        TermEffect.enableRawMode = true ∧
    (handle_ui_command (Except.error ()) ⟨0, 0, 80, 24⟩ ⟨16, 0, 64, 24⟩ []).1.contains
        TermEffect.enterAlternateScreen = true := by decide

/-- C2 amended: a startup fetch failure aborts the command with exactly the
three terminal-mode setup effects already performed, in order mouse
capture, raw mode, alternate screen, and with no restoration effect before
the error propagates. -/
theorem claim2_fetch_failure_after_setup (volumes_area tabs_area : Rect)
    (script : List StepInput) :
    handle_ui_command (Except.error ()) volumes_area tabs_area script
      = ([TermEffect.enableMouseCapture, TermEffect.enableRawMode,
          TermEffect.enterAlternateScreen], UiResult.err) := rfl

/-- C3 is false on the code: a draw failure on the very first iteration
propagates without any of the three terminal-mode restorations running. -/
theorem claim3_counterexample :
    (handle_ui_command (Except.ok []) ⟨0, 0, 80, 24⟩ ⟨16, 0, 64, 24⟩
        [StepInput.drawErr]).2 = UiResult.err ∧
    (handle_ui_command (Except.ok []) ⟨0, 0, 80, 24⟩ ⟨16, 0, 64, 24⟩
        [StepInput.drawErr]).1.contains TermEffect.disableRawMode = false ∧
    (handle_ui_command (Except.ok []) ⟨0, 0, 80, 24⟩ ⟨16, 0, 64, 24⟩
        [StepInput.drawErr]).1.contains TermEffect.disableMouseCapture = false ∧
    (handle_ui_command (Except.ok []) ⟨0, 0, 80, 24⟩ ⟨16, 0, 64, 24⟩
        [StepInput.drawErr]).1.contains TermEffect.leaveAlternateScreen = false := by
  decide

/-- C3 amended: terminal mode is restored exactly on the quit-key exit path;
when a draw or input poll/read call fails, the failure propagates with only
the setup effects performed and no restoration. -/
theorem claim3_cleanup_only_on_quit (l : List Volume)
    (volumes_area tabs_area : Rect) (script : List StepInput) :
    ((handle_ui_command (Except.ok l) volumes_area tabs_area script).2
        = UiResult.ok →
      (handle_ui_command (Except.ok l) volumes_area tabs_area script).1
        = setupEffects ++ cleanupEffects) ∧
    ((handle_ui_command (Except.ok l) volumes_area tabs_area script).2
        = UiResult.err →
      (handle_ui_command (Except.ok l) volumes_area tabs_area script).1
        = setupEffects) := by
  have hmain : handle_ui_command (Except.ok l) volumes_area tabs_area script
      = match runLoop volumes_area tabs_area script (TableState.new l) with
        | (_, .quit) => (setupEffects ++ cleanupEffects, .ok)
        | (_, .err) => (setupEffects, .err)
        | (_, .fuelOut) => (setupEffects, .stillRunning) := rfl
  rcases hr : runLoop volumes_area tabs_area script (TableState.new l) with ⟨st', ex⟩
  rw [hmain, hr]
  cases ex <;> exact ⟨fun h => by simp at h ⊢, fun h => by simp at h ⊢⟩

/-- Concrete runs of claim3_cleanup_only_on_quit: a quit script restores the
terminal, a failing-draw script leaves only the setup effects. -/
theorem claim3_witness :
    (handle_ui_command (Except.ok []) ⟨0, 0, 80, 24⟩ ⟨16, 0, 64, 24⟩
        [StepInput.key (KeyCode.char 'q')]).1 = setupEffects ++ cleanupEffects ∧
    (handle_ui_command (Except.ok []) ⟨0, 0, 80, 24⟩ ⟨16, 0, 64, 24⟩
        [StepInput.drawErr]).1 = setupEffects :=
  ⟨(claim3_cleanup_only_on_quit [] ⟨0, 0, 80, 24⟩ ⟨16, 0, 64, 24⟩
      [StepInput.key (KeyCode.char 'q')]).1 (by decide),
   (claim3_cleanup_only_on_quit [] ⟨0, 0, 80, 24⟩ ⟨16, 0, 64, 24⟩
      [StepInput.drawErr]).2 (by decide)⟩

/-- C4: `TableState::new` sorts the volumes ascending by name under the
case-sensitive lexicographic comparator (missing name read as the empty
string), is a permutation of the input, highlights index 0 exactly when
the result is non-empty, and starts on the `VolumeShow` tab (the tab the
spec calls VolumeDetail).  The two concrete conjuncts check the spec's
`[b, a] ↦ [a, b]` scenario and the case-sensitivity of the order
(uppercase `B` sorts before lowercase `a`). -/
theorem claim4_load_sorts (l : List Volume) :
    ((TableState.new l).items.Perm l) ∧
    (List.Sorted (fun a b => nameLe a b = true) (TableState.new l).items) ∧
    ((TableState.new l).selected = if l.length = 0 then none else some 0) ∧
    ((TableState.new l).selected_tab = SelectedTab.VolumeShow) ∧
    ((TableState.new [⟨some "b", none⟩, ⟨some "a", none⟩]).items
        = [⟨some "a", none⟩, ⟨some "b", none⟩]) ∧
    ((TableState.new [⟨some "a", none⟩, ⟨some "B", none⟩]).items
        = [⟨some "B", none⟩, ⟨some "a", none⟩]) :=
  ⟨List.perm_insertionSort _ l, List.sorted_insertionSort _ l,
   TableState.new_selected l, rfl, by decide, by decide⟩

/-- C5: selectNext and selectPrevious are cyclic on a non-empty list: next
from the last index wraps to 0, n calls of next from index 0 on a list of
length n return to 0, previous from index 0 wraps to the last index, and
on an empty list both leave the highlighted index `none`. -/
theorem claim5_cyclic_selection (st : TableState) (n i : Nat)
    (hn : st.items.length = n) :
    (st.items = [] →
      st.next = { st with selected := none } ∧
      st.previous = { st with selected := none }) ∧
    (st.selected = some i → i + 1 = n → st.next.selected = some 0) ∧
    (st.selected = some 0 → 0 < n → st.previous.selected = some (n - 1)) ∧
    (st.selected = some 0 → 0 < n → (TableState.next^[n] st).selected = some 0) := by
  refine ⟨?_, ?_, ?_, ?_⟩
  · intro hnil
    constructor <;> simp [TableState.next, TableState.previous, hnil]
  · intro hsel hlast
    have hne : st.items ≠ [] := by
      intro hc
      rw [hc] at hn
      simp at hn
      omega
    rw [TableState.next_of_some st i hsel hne]
    simp only [hn]
    rw [hlast]
    simp [Nat.mod_self]
  · intro hsel hpos
    have hne : st.items ≠ [] := by
      intro hc
      rw [hc] at hn
      simp at hn
      omega
    rw [TableState.previous_of_some st 0 hsel hne]
    simp [hn]
  · intro hsel hpos
    have := (TableState.next_iter n n st 0 hn hsel hpos).1
    simpa [Nat.mod_self] using this

/-- Concrete instantiations of claim5_cyclic_selection: the empty list is a
no-op, next wraps 2 ↦ 0 on three items, previous wraps 0 ↦ 2, and three
nexts from 0 return to 0. -/
theorem claim5_witness :
    ((TableState.new []).next = { TableState.new [] with selected := none } ∧
      (TableState.new []).previous = { TableState.new [] with selected := none }) ∧
    (TableState.mk (some 2) [⟨some "a", none⟩, ⟨some "b", none⟩, ⟨some "c", none⟩]
        true SelectedTab.VolumeShow).next.selected = some 0 ∧
    (TableState.mk (some 0) [⟨some "a", none⟩, ⟨some "b", none⟩, ⟨some "c", none⟩]
        true SelectedTab.VolumeShow).previous.selected = some 2 ∧
    (TableState.next^[3] (TableState.mk (some 0)
        [⟨some "a", none⟩, ⟨some "b", none⟩, ⟨some "c", none⟩]
        true SelectedTab.VolumeShow)).selected = some 0 :=
  ⟨(claim5_cyclic_selection (TableState.new []) 0 0 (by decide)).1 (by decide),
   (claim5_cyclic_selection (TableState.mk (some 2)
      [⟨some "a", none⟩, ⟨some "b", none⟩, ⟨some "c", none⟩]
      true SelectedTab.VolumeShow) 3 2 (by decide)).2.1 (by decide) (by decide),
   (claim5_cyclic_selection (TableState.mk (some 0)
      [⟨some "a", none⟩, ⟨some "b", none⟩, ⟨some "c", none⟩]
      true SelectedTab.VolumeShow) 3 0 (by decide)).2.2.1 (by decide) (by decide),
   (claim5_cyclic_selection (TableState.mk (some 0)
      [⟨some "a", none⟩, ⟨some "b", none⟩, ⟨some "c", none⟩]
      true SelectedTab.VolumeShow) 3 0 (by decide)).2.2.2 (by decide) (by decide)⟩

/-- C6: from any valid highlighted index on a list of size at least one,
selectNext then selectPrevious (and vice versa) restores the whole state. -/
theorem claim6_next_previous_inverse (st : TableState) (i : Nat)
    (hsel : st.selected = some i) (hi : i < st.items.length) :
    st.next.previous = st ∧ st.previous.next = st := by
  obtain ⟨sel, items, uni, tab⟩ := st
  simp only at hsel hi
  subst hsel
  have hne : items ≠ [] := by
    intro hc
    rw [hc] at hi
    simp at hi
  have hmod : (i + 1) % items.length = if i + 1 = items.length then 0 else i + 1 := by
    by_cases hc : i + 1 = items.length
    · simp [hc, Nat.mod_self]
    · have hlt : i + 1 < items.length := by omega
      simp [hc, Nat.mod_eq_of_lt hlt]
  constructor
  · simp only [TableState.next, TableState.previous, List.isEmpty_iff, hne,
      if_neg, ite_false]
    by_cases hc : i + 1 = items.length
    · simp [List.isEmpty_iff, hne, hmod, hc] <;> omega
    · simp [List.isEmpty_iff, hne, hmod, hc] <;> omega
  · simp only [TableState.previous, TableState.next, List.isEmpty_iff, hne,
      if_neg, ite_false]
    by_cases hc : i = 0
    · simp [List.isEmpty_iff, hne, hc]
      have h1 : items.length - 1 + 1 = items.length := by omega
      rw [h1, Nat.mod_self]
    · simp [List.isEmpty_iff, hne, hc]
      have h1 : i - 1 + 1 = i := by omega
      rw [h1, Nat.mod_eq_of_lt hi]

/-- Concrete instantiation of claim6_next_previous_inverse on a
three-volume list highlighted at index 1. -/
theorem claim6_witness :
    (TableState.mk (some 1) [⟨some "a", none⟩, ⟨some "b", none⟩, ⟨some "c", none⟩]
        true SelectedTab.VolumeShow).next.previous
      = TableState.mk (some 1) [⟨some "a", none⟩, ⟨some "b", none⟩, ⟨some "c", none⟩]
          true SelectedTab.VolumeShow ∧
    (TableState.mk (some 1) [⟨some "a", none⟩, ⟨some "b", none⟩, ⟨some "c", none⟩]
        true SelectedTab.VolumeShow).previous.next
      = TableState.mk (some 1) [⟨some "a", none⟩, ⟨some "b", none⟩, ⟨some "c", none⟩]
          true SelectedTab.VolumeShow :=
  claim6_next_previous_inverse (TableState.mk (some 1)
    [⟨some "a", none⟩, ⟨some "b", none⟩, ⟨some "c", none⟩]
    true SelectedTab.VolumeShow) 1 (by decide) (by decide)

/-- C7: tabNext and tabPrevious step through the fixed order
[VolumeShow, Scans, Browse] and clamp at both ends: next from Browse stays
at Browse and previous from VolumeShow stays at VolumeShow. -/
theorem claim7_tab_clamp :
    SelectedTab.next .VolumeShow = .Scans ∧
    SelectedTab.next .Scans = .Browse ∧
    SelectedTab.next .Browse = .Browse ∧
    SelectedTab.previous .VolumeShow = .VolumeShow ∧
    SelectedTab.previous .Scans = .VolumeShow ∧
    SelectedTab.previous .Browse = .Scans := by decide

/-- C8: icon resolution is case-insensitive (two type tags with the same
lowercasing get the same icon; "Linux", "linux", "LINUX" all resolve to
the linux category), every tag resolves to one of the four categories with
the glyph-versus-fallback choice made globally by `use_unicode` (never a
per-category mix), and `use_unicode` is set at load time to the non-control
check over all four primary glyph strings, which passes. -/
theorem claim8_icon_resolution (st : TableState) (s t : String) (l : List Volume)
    (h : toLowercase s = toLowercase t) :
    (st.get_os_icon_with_style s = st.get_os_icon_with_style t) ∧
    ((∀ u, st.get_os_icon_with_style u = glyphOf (categoryOf u)) ∨
      (∀ u, st.get_os_icon_with_style u = fallbackOf (categoryOf u))) ∧
    ((TableState.new l).use_unicode = iconsRenderable) ∧
    (iconsRenderable = true) ∧
    (categoryOf "Linux" = Category.linux) ∧
    (categoryOf "linux" = Category.linux) ∧
    (categoryOf "LINUX" = Category.linux) := by
  refine ⟨?_, ?_, rfl, by decide, by decide, by decide, by decide⟩
  · simp only [TableState.get_os_icon_with_style, h]
  · by_cases hu : st.use_unicode
    · exact Or.inl fun u => by rw [get_os_icon_eq]; simp [hu]
    · exact Or.inr fun u => by rw [get_os_icon_eq]; simp [hu]

/-- Concrete instantiation of claim8_icon_resolution: "Linux" and "LINUX"
resolve to the same icon in the loaded state. -/
theorem claim8_witness :
    (TableState.new []).get_os_icon_with_style "Linux"
      = (TableState.new []).get_os_icon_with_style "LINUX" :=
  (claim8_icon_resolution (TableState.new []) "Linux" "LINUX" [] (by decide)).1

/-- C9 as stated is false on the code: with 65537 volumes, a press at
relative row 2 inside the list region targets a valid index but leaves
the selection unchanged, because the row is compared against the list
length truncated to 16 bits (65537 as u16 = 1). -/
theorem claim9_counterexample :
    (Rect.contains ⟨0, 0, 5, 5⟩ ⟨1, 3⟩ = true) ∧
    (3 - ((0 : Nat) + 1) = 2) ∧
    (2 < (TableState.new (List.replicate 65537
        (⟨some "a", none⟩ : Volume))).items.length) ∧
    ((handleMouseDown (TableState.new (List.replicate 65537
        (⟨some "a", none⟩ : Volume))) ⟨0, 0, 5, 5⟩ ⟨5, 0, 20, 5⟩ 1 3).selected
      = some 0) := by
  have hlen : (TableState.new (List.replicate 65537
      (⟨some "a", none⟩ : Volume))).items.length = 65537 := by
    rw [TableState.new_items_length, List.length_replicate]
  have hsel : (TableState.new (List.replicate 65537
      (⟨some "a", none⟩ : Volume))).selected = some 0 := by
    rw [TableState.new_selected, List.length_replicate]
    simp
  have hcont : Rect.contains ⟨0, 0, 5, 5⟩ ⟨1, 3⟩ = true := by decide
  have hgen : ∀ st : TableState, st.items.length = 65537 → st.selected = some 0 →
      (handleMouseDown st ⟨0, 0, 5, 5⟩ ⟨5, 0, 20, 5⟩ 1 3).selected = some 0 := by
    intro st h1 h2
    simp [handleMouseDown, hcont, h1, h2]
  exact ⟨hcont, rfl, by rw [hlen]; norm_num, hgen _ hlen hsel⟩

/-- C9 amended: for a press inside the list region the selection is set to
relativeRow = pressRow - (listRegionTop + 1) exactly when relativeRow is
below the list length truncated to 16 bits (the `as u16` cast of the
length), and is unchanged otherwise; for lists shorter than 65536 entries
the truncated bound coincides with being a valid index. -/
theorem claim9_row_click (st : TableState) (volumes_area tabs_area : Rect)
    (column row : Nat)
    (hin : volumes_area.contains ⟨column, row⟩ = true) :
    (row - (volumes_area.y + 1) < st.items.length % 65536 →
      handleMouseDown st volumes_area tabs_area column row
        = { st with selected := some (row - (volumes_area.y + 1)) }) ∧
    (st.items.length % 65536 ≤ row - (volumes_area.y + 1) →
      handleMouseDown st volumes_area tabs_area column row = st) ∧
    (st.items.length < 65536 →
      (row - (volumes_area.y + 1) < st.items.length % 65536 ↔
        row - (volumes_area.y + 1) < st.items.length)) := by
  refine ⟨fun hlt => ?_, fun hge => ?_, fun hsmall => ?_⟩
  · simp [handleMouseDown, hin, hlt]
  · simp [handleMouseDown, hin, Nat.not_lt.mpr hge]
  · rw [Nat.mod_eq_of_lt hsmall]

/-- Concrete instantiation of claim9_row_click: on a two-volume list, a
press one row below the top border selects index 1, and a press below the
occupied rows leaves the state unchanged. -/
theorem claim9_witness :
    handleMouseDown (TableState.mk (some 0)
        [⟨some "a", none⟩, ⟨some "b", none⟩] true SelectedTab.VolumeShow)
        ⟨0, 0, 5, 5⟩ ⟨5, 0, 20, 5⟩ 1 2
      = TableState.mk (some 1) [⟨some "a", none⟩, ⟨some "b", none⟩]
          true SelectedTab.VolumeShow ∧
    handleMouseDown (TableState.mk (some 0)
        [⟨some "a", none⟩, ⟨some "b", none⟩] true SelectedTab.VolumeShow)
        ⟨0, 0, 5, 5⟩ ⟨5, 0, 20, 5⟩ 1 4
      = TableState.mk (some 0) [⟨some "a", none⟩, ⟨some "b", none⟩]
          true SelectedTab.VolumeShow :=
  ⟨(claim9_row_click (TableState.mk (some 0)
      [⟨some "a", none⟩, ⟨some "b", none⟩] true SelectedTab.VolumeShow)
      ⟨0, 0, 5, 5⟩ ⟨5, 0, 20, 5⟩ 1 2 (by decide)).1 (by decide),
   (claim9_row_click (TableState.mk (some 0)
      [⟨some "a", none⟩, ⟨some "b", none⟩] true SelectedTab.VolumeShow)
      ⟨0, 0, 5, 5⟩ ⟨5, 0, 20, 5⟩ 1 4 (by decide)).2.1 (by decide)⟩

/-- C10 as stated is false on the code: a volume whose name field is
missing is dropped from the rendered rows by the draw closure instead of
being rendered with an empty name. -/
theorem claim10_counterexample :
    (TableState.new [⟨none, some "linux"⟩]).items.length = 1 ∧
    renderRows (TableState.new [⟨none, some "linux"⟩]) = [] := by decide

/-- C10 amended: the rendered list panel contains one "<icon><name>" row
for each volume whose name field is present, in list order; a volume with
a missing name is dropped from the rendered rows (rendering never fails),
and a missing type field is read as the empty string, which resolves to
the unrecognized category. -/
theorem claim10_render_rows (st : TableState) :
    renderRows st
      = (st.items.filter (fun v => v.vol.isSome)).map
          (fun v => st.get_os_icon_with_style (v.type.getD "") ++ v.vol.getD "") ∧
    categoryOf "" = Category.unrecognized :=
  ⟨filterMap_renderRow st st.items, by decide⟩
